import Mathlib

/-!
Shallow embedding of the viewport / navigation engine of the two viewer
applications in `src/Image Navigation`:

* `GridOmeroOpen.py`, class `WholeSlideImageViewer`;
* `MapOmero.py`, class `WSITrackingViewer`.

The two classes share identical `get_best_level`, `read_region`,
`update_view` (clamp part), `zoom_in`, `zoom_out` and `load_image` logic;
those are embedded once over `ViewerState`.  The tracking machinery of
`WSITrackingViewer` (`initialize_tracking`, `get_tracking_level`,
`mark_visited`) is embedded over `MapState`.

Python float arithmetic is modelled over `ℚ`; Python `int(...)` applied to
a float is truncation toward zero (`pyInt`); Python `//` on integers is
floor division (`Int.fdiv`).  Pixel buffers are modelled by their
dimensions only (`Region`); the GUI (labels, canvas redraws, dialogs) is
not modelled, and message boxes are modelled as result values.
-/

/-- Python `int(q)` applied to a float: truncation toward zero. -/
def pyInt (q : ℚ) : ℤ := if 0 ≤ q then ⌊q⌋ else ⌈q⌉

/-- A pixel buffer; only its dimensions are modelled. -/
structure Region where
  width : ℤ
  height : ℤ
deriving DecidableEq

/-- `PIL.Image.resize((w, h), ...)`: the result has exactly the requested
dimensions, independent of the input buffer. -/
def Region.resize (_r : Region) (w h : ℤ) : Region := ⟨w, h⟩

/-- State shared by `WholeSlideImageViewer` and `WSITrackingViewer`:
the image variables, view variables and (for the grid app) the grid
configuration set in `__init__` and mutated by the methods below.
`slide`/`image` record whether an OpenSlide handle / a PIL image is held. -/
structure ViewerState where
  slide : Bool
  image : Bool
  use_openslide : Bool
  slide_dimensions : ℕ × ℕ
  level_count : ℕ
  level_downsamples : List ℚ
  zoom : ℚ
  offset_x : ℚ
  offset_y : ℚ
  grid_size : ℕ
  max_cols : ℕ
  max_rows : ℕ
deriving DecidableEq

/-- The scan of `get_best_level`
(`GridOmeroOpen.py` 213-217, `MapOmero.py` 222-226):
`for level, downsample in enumerate(self.level_downsamples): ...` with a
strict `diff < min_diff` update, so the first minimum wins. -/
def bestLevelLoop (target : ℚ) : List ℚ → ℕ → ℕ → ℚ → ℕ
  | [], _, best_level, _ => best_level
  | downsample :: rest, level, best_level, min_diff =>
      if |downsample - target| < min_diff then
        bestLevelLoop target rest (level + 1) level |downsample - target|
      else
        bestLevelLoop target rest (level + 1) best_level min_diff

/-- `get_best_level(zoom)` (`GridOmeroOpen.py` 203-219, `MapOmero.py`
216-227).  Returns 0 when not using OpenSlide; otherwise scans
`level_downsamples` for the downsample closest to `1/zoom`, starting from
`min_diff = abs(downsamples[0] - target)`.  (Python would raise an
IndexError on an empty list; the claims only concern non-empty lists, and
`getD _ 0` stands in for the indexing.) -/
def get_best_level (s : ViewerState) (zoom : ℚ) : ℕ :=
  if s.use_openslide = false then 0
  else
    let target := 1 / zoom
    bestLevelLoop target s.level_downsamples 0 0 |s.level_downsamples.getD 0 0 - target|

/-- `read_region(x, y, width, height, zoom)` (`GridOmeroOpen.py` 221-248,
`MapOmero.py` 229-247).  OpenSlide branch: crop of
`(int(width/downsample), int(height/downsample))` at the best level, resized
to `(int(width*zoom), int(height*zoom))`.  Flat branch: crop clipped to the
image (`self.image.width/height` equals `slide_dimensions` for a loaded flat
image), resized to `(int((x2-x)*zoom), int((y2-y)*zoom))`. -/
def read_region (s : ViewerState) (x y width height zoom : ℚ) : Region :=
  if s.use_openslide then
    let level := get_best_level s zoom
    let downsample := s.level_downsamples.getD level 1
    let region : Region := ⟨pyInt (width / downsample), pyInt (height / downsample)⟩
    region.resize (pyInt (width * zoom)) (pyInt (height * zoom))
  else
    let x2 := min (x + width) (s.slide_dimensions.1 : ℚ)
    let y2 := min (y + height) (s.slide_dimensions.2 : ℚ)
    let region : Region := ⟨pyInt x2 - pyInt x, pyInt y2 - pyInt y⟩
    region.resize (pyInt ((x2 - x) * zoom)) (pyInt ((y2 - y) * zoom))

/-- One axis of the view-size computation at the start of `update_view`
(`GridOmeroOpen.py` 340-346, `MapOmero.py` 366-372):
`view = min(int(canvas / zoom), dim)`. -/
def view_size (dim canvas : ℕ) (zoom : ℚ) : ℤ :=
  min (pyInt ((canvas : ℚ) / zoom)) (dim : ℤ)

/-- One axis of the offset clamp in `update_view`
(`GridOmeroOpen.py` 348-349, `MapOmero.py` 374-375):
`offset = max(0, min(offset, dim - view))`. -/
def clamp_offset (offset : ℚ) (dim : ℕ) (view : ℤ) : ℚ :=
  max 0 (min offset ((dim : ℚ) - (view : ℚ)))

/-- `update_view` (`GridOmeroOpen.py` 336-364, `MapOmero.py` 362-387),
restricted to its state effect and its region read: no-op without an image,
otherwise clamp both offsets and read the region at the clamped rectangle.
(The grid overlay / tracking / map refresh that follow do not change the
viewport state.)  Returns the new state and the read region. -/
def update_view (s : ViewerState) (canvas_w canvas_h : ℕ) : ViewerState × Option Region :=
  if s.slide_dimensions.1 = 0 then (s, none)
  else
    let w := max canvas_w 1
    let h := max canvas_h 1
    let view_w := view_size s.slide_dimensions.1 w s.zoom
    let view_h := view_size s.slide_dimensions.2 h s.zoom
    let ox := clamp_offset s.offset_x s.slide_dimensions.1 view_w
    let oy := clamp_offset s.offset_y s.slide_dimensions.2 view_h
    let s1 := { s with offset_x := ox, offset_y := oy }
    (s1, some (read_region s1 ox oy (view_w : ℚ) (view_h : ℚ) s.zoom))

/-- One zoom-in step on the zoom factor: `min(zoom * 1.5, 10.0)`. -/
def zoom_step_in (q : ℚ) : ℚ := min (q * (3 / 2)) 10

/-- One zoom-out step on the zoom factor: `max(zoom / 1.5, 0.05)`. -/
def zoom_step_out (q : ℚ) : ℚ := max (q / (3 / 2)) (1 / 20)

/-- `zoom_in` (`GridOmeroOpen.py` 398-405, `MapOmero.py` 413-417):
guarded by `if self.slide_dimensions[0]`.  The `update_view` refresh that
follows does not change the zoom factor. -/
def zoom_in (s : ViewerState) : ViewerState :=
  if s.slide_dimensions.1 ≠ 0 then { s with zoom := zoom_step_in s.zoom } else s

/-- `zoom_out` (`GridOmeroOpen.py` 407-414, `MapOmero.py` 419-423). -/
def zoom_out (s : ViewerState) : ViewerState :=
  if s.slide_dimensions.1 ≠ 0 then { s with zoom := zoom_step_out s.zoom } else s

/-- Result reported by `goto_sector` via message boxes. -/
inductive GotoResult
  | ok
  | warnNoImage
  | errBounds
  | errValue
deriving DecidableEq

/-- Center coordinate of sector index `idx`
(`GridOmeroOpen.py` 388-389): `idx * grid_size + grid_size / 2`. -/
def sector_center (idx : ℤ) (grid_size : ℕ) : ℚ :=
  (idx : ℚ) * (grid_size : ℚ) + (grid_size : ℚ) / 2

/-- `goto_sector` (`GridOmeroOpen.py` 375-396).  The spinbox entries are
modelled as `Option ℤ` (`none` = `int(...)` raised `ValueError`).  Bounds
check, then offset recomputation centering the sector, then the
`update_view` refresh. -/
def goto_sector (s : ViewerState) (canvas_w canvas_h : ℕ)
    (spin_col spin_row : Option ℤ) : ViewerState × GotoResult :=
  if s.slide_dimensions.1 = 0 then (s, .warnNoImage)
  else
    match spin_col, spin_row with
    | some col, some row =>
        if col < 0 ∨ (s.max_cols : ℤ) ≤ col ∨ row < 0 ∨ (s.max_rows : ℤ) ≤ row then
          (s, .errBounds)
        else
          let cx := sector_center col s.grid_size
          let cy := sector_center row s.grid_size
          let w := max canvas_w 1
          let h := max canvas_h 1
          let s1 := { s with
            offset_x := cx - (w : ℚ) / s.zoom / 2,
            offset_y := cy - (h : ℚ) / s.zoom / 2 }
          ((update_view s1 canvas_w canvas_h).1, .ok)
    | _, _ => (s, .errValue)

/-- Outcome of the decoding stage of `load_image`: OpenSlide open succeeded,
OpenSlide failed (or was not attempted) and the PIL/tifffile path succeeded,
or the decode raised and the `except` handler ran. -/
inductive LoadAttempt
  | openslideOk (dims : ℕ × ℕ) (levels : ℕ) (downsamples : List ℚ)
  | flatOk (dims : ℕ × ℕ)
  | loadFail
deriving DecidableEq

/-- `update_info` (`GridOmeroOpen.py` 180-201), restricted to its state
effect: recompute `max_cols`/`max_rows` as `ceil(dim / grid_size)` via
`(dim + grid_size - 1) // grid_size`. -/
def update_info (s : ViewerState) : ViewerState :=
  if s.slide_dimensions.1 = 0 then s
  else
    { s with
      max_cols := (s.slide_dimensions.1 + s.grid_size - 1) / s.grid_size,
      max_rows := (s.slide_dimensions.2 + s.grid_size - 1) / s.grid_size }

/-- `reset` (`GridOmeroOpen.py` 425-430, `MapOmero.py` 442-447), restricted
to its state effect. -/
def reset (s : ViewerState) : ViewerState :=
  { s with zoom := 1, offset_x := 0, offset_y := 0 }

/-- `load_image` (`GridOmeroOpen.py` 126-178, `MapOmero.py` 146-194).
The `try` block first closes the previous slide and clears
`slide`/`image`/`use_openslide`; the decode outcome then either installs the
new image state (followed by `update_info` and `reset`), or — when the
decode raises — leaves the state exactly as the clearing prefix left it:
`slide_dimensions`, `level_count` and `level_downsamples` keep their prior
values. -/
def load_image (s : ViewerState) (attempt : LoadAttempt) : ViewerState :=
  let s1 := { s with slide := false, image := false, use_openslide := false }
  match attempt with
  | .openslideOk dims levels downsamples =>
      reset (update_info { s1 with
        slide := true, use_openslide := true, slide_dimensions := dims,
        level_count := levels, level_downsamples := downsamples })
  | .flatOk dims =>
      reset (update_info { s1 with image := true, slide_dimensions := dims })
  | .loadFail => s1

/-- `self.tracking_levels = [10, 40, 60, 80]` (`MapOmero.py` 35), in
declared order. -/
def tracking_levels : List ℤ := [10, 40, 60, 80]

/-- Python `min(x :: rest, key=k)`: scan keeping the incumbent on ties
(strict `<`), so the first element attaining the minimal key wins. -/
def pyMinKey (key : ℤ → ℤ) : List ℤ → ℤ → ℤ
  | [], best => best
  | x :: rest, best =>
      if key x < key best then pyMinKey key rest x else pyMinKey key rest best

/-- `get_tracking_level(zoom_percent)` (`MapOmero.py` 249-251):
`min(self.tracking_levels, key=lambda x: abs(x - zoom_percent))`. -/
def get_tracking_level (zoom_percent : ℤ) : ℤ :=
  match tracking_levels with
  | [] => 0
  | x :: rest => pyMinKey (fun b => |b - zoom_percent|) rest x

/-- A bucket's occupancy grid, `np.zeros((grid_h, grid_w), dtype=bool)`:
`rows = shape[0] = grid_h`, `cols = shape[1] = grid_w`; `cell i j` is entry
`[i, j]` (row `i`, column `j`). -/
structure TrackGrid where
  rows : ℕ
  cols : ℕ
  cell : ℤ → ℤ → Bool

/-- `initialize_tracking` (`MapOmero.py` 196-203):
`grid_w = (w // cell) + 1`, `grid_h = (h // cell) + 1`, and every bucket in
`tracking_levels` gets a fresh all-false grid.  The mapping is modelled as a
function from bucket to `Option TrackGrid` (`none` = no grid allocated). -/
def initialize_tracking (dims : ℕ × ℕ) (grid_cell_size : ℕ) : ℤ → Option TrackGrid :=
  let grid_w := dims.1 / grid_cell_size + 1
  let grid_h := dims.2 / grid_cell_size + 1
  fun percent =>
    if percent ∈ tracking_levels then some ⟨grid_h, grid_w, fun _ _ => false⟩
    else none

/-- State of `WSITrackingViewer` relevant to the tracking recorder. -/
structure MapState where
  use_openslide : Bool
  slide_dimensions : ℕ × ℕ
  level_downsamples : List ℚ
  zoom : ℚ
  offset_x : ℚ
  offset_y : ℚ
  grid_cell_size : ℕ
  tracking_grids : ℤ → Option TrackGrid

/-- The bucket selected by `mark_visited` (`MapOmero.py` 258-262):
`zoom_percent = int(self.zoom * 100)`, then `get_tracking_level`. -/
def visited_bucket (s : MapState) : ℤ := get_tracking_level (pyInt (s.zoom * 100))

/-- The inclusive tracking-cell rectangle
`(grid_x1, grid_y1, grid_x2, grid_y2)` computed by `mark_visited`
(`MapOmero.py` 267-280) against grid `g`:
`x1 = int(offset)`, `x2 = int(offset + canvas/zoom)`, lower indices floored
at 0, upper indices capped at `shape - 1`; `//` is floor division. -/
def visit_rect (s : MapState) (canvas_w canvas_h : ℕ) (g : TrackGrid) : ℤ × ℤ × ℤ × ℤ :=
  let w := max canvas_w 1
  let h := max canvas_h 1
  let view_w := (w : ℚ) / s.zoom
  let view_h := (h : ℚ) / s.zoom
  let x1 := pyInt s.offset_x
  let y1 := pyInt s.offset_y
  let x2 := pyInt (s.offset_x + view_w)
  let y2 := pyInt (s.offset_y + view_h)
  let c := (s.grid_cell_size : ℤ)
  (max 0 (Int.fdiv x1 c), max 0 (Int.fdiv y1 c),
   min ((g.cols : ℤ) - 1) (Int.fdiv x2 c), min ((g.rows : ℤ) - 1) (Int.fdiv y2 c))

/-- `mark_visited` (`MapOmero.py` 253-282): no-op without an image or
without a grid for the selected bucket; otherwise set every cell of the
inclusive rectangle `visit_rect` to visited in that bucket's grid only
(numpy slice assignment `[gy1:gy2+1, gx1:gx2+1] = True`; an empty rectangle
assigns nothing). -/
def mark_visited (s : MapState) (canvas_w canvas_h : ℕ) : MapState :=
  if s.slide_dimensions.1 = 0 then s
  else
    match s.tracking_grids (visited_bucket s) with
    | none => s
    | some g =>
        let r := visit_rect s canvas_w canvas_h g
        let g1 : TrackGrid :=
          { g with cell := fun i j =>
              if r.2.1 ≤ i ∧ i ≤ r.2.2.2 ∧ r.1 ≤ j ∧ j ≤ r.2.2.1 then true
              else g.cell i j }
        { s with tracking_grids := fun p =>
            if p = visited_bucket s then some g1 else s.tracking_grids p }

/-! ### Arithmetic helper lemmas -/

theorem pyInt_of_nonneg {q : ℚ} (h : 0 ≤ q) : pyInt q = ⌊q⌋ := by
  simp [pyInt, h]

theorem pyInt_nonneg {q : ℚ} (h : 0 ≤ q) : 0 ≤ pyInt q := by
  rw [pyInt_of_nonneg h]
  exact Int.floor_nonneg.mpr h

theorem pyInt_mono_of_nonneg {q r : ℚ} (h0 : 0 ≤ q) (h : q ≤ r) : pyInt q ≤ pyInt r := by
  rw [pyInt_of_nonneg h0, pyInt_of_nonneg (h0.trans h)]
  exact Int.floor_le_floor h

theorem pyInt_le_natCast {q : ℚ} {n : ℕ} (h0 : 0 ≤ q) (h : q ≤ (n : ℚ)) :
    pyInt q ≤ (n : ℤ) := by
  rw [pyInt_of_nonneg h0]
  calc ⌊q⌋ ≤ ⌊(n : ℚ)⌋ := Int.floor_le_floor h
  _ = (n : ℤ) := by exact_mod_cast Int.floor_natCast n

theorem pyInt_natCast (n : ℕ) : pyInt (n : ℚ) = (n : ℤ) := by
  rw [pyInt_of_nonneg (by positivity)]
  exact_mod_cast Int.floor_natCast n

theorem view_size_nonneg (dim canvas : ℕ) (zoom : ℚ) (hc : 1 ≤ canvas) (hz : 0 < zoom) :
    0 ≤ view_size dim canvas zoom := by
  have h1 : (0 : ℚ) ≤ (canvas : ℚ) / zoom := by positivity
  exact le_min (pyInt_nonneg h1) (by positivity)

theorem view_size_le (dim canvas : ℕ) (zoom : ℚ) : view_size dim canvas zoom ≤ (dim : ℤ) :=
  min_le_right _ _

theorem clamp_offset_nonneg (offset : ℚ) (dim : ℕ) (view : ℤ) :
    0 ≤ clamp_offset offset dim view :=
  le_max_left _ _

theorem clamp_offset_add_le {offset : ℚ} {dim : ℕ} {view : ℤ} (h : view ≤ (dim : ℤ)) :
    clamp_offset offset dim view + (view : ℚ) ≤ (dim : ℚ) := by
  have hv : (view : ℚ) ≤ (dim : ℚ) := by exact_mod_cast h
  have h1 : clamp_offset offset dim view ≤ (dim : ℚ) - (view : ℚ) :=
    max_le (by linarith) (min_le_right _ _)
  linarith

/-! ### C1: the clamp keeps the read rectangle inside the image -/

/-- C1: for every loaded image, every zoom in `[0.05, 10.0]` and every prior
offset, the clamp at the start of `update_view` yields nonnegative view
sizes and offsets with `offset + view ≤ dimension` on both axes, and the
region read performed by `update_view` uses exactly the clamped offsets and
clamped view sizes, so the read rectangle never exceeds the image bounds. -/
theorem update_view_read_within_bounds (s : ViewerState) (canvas_w canvas_h : ℕ)
    (hload : s.slide_dimensions.1 ≠ 0)
    (hz1 : 1 / 20 ≤ s.zoom) (_hz2 : s.zoom ≤ 10) :
    0 ≤ view_size s.slide_dimensions.1 (max canvas_w 1) s.zoom ∧
    0 ≤ view_size s.slide_dimensions.2 (max canvas_h 1) s.zoom ∧
    0 ≤ (update_view s canvas_w canvas_h).1.offset_x ∧
    (update_view s canvas_w canvas_h).1.offset_x
        + ((view_size s.slide_dimensions.1 (max canvas_w 1) s.zoom : ℤ) : ℚ)
      ≤ (s.slide_dimensions.1 : ℚ) ∧
    0 ≤ (update_view s canvas_w canvas_h).1.offset_y ∧
    (update_view s canvas_w canvas_h).1.offset_y
        + ((view_size s.slide_dimensions.2 (max canvas_h 1) s.zoom : ℤ) : ℚ)
      ≤ (s.slide_dimensions.2 : ℚ) ∧
    (update_view s canvas_w canvas_h).2 =
      some (read_region (update_view s canvas_w canvas_h).1
        (update_view s canvas_w canvas_h).1.offset_x
        (update_view s canvas_w canvas_h).1.offset_y
        ((view_size s.slide_dimensions.1 (max canvas_w 1) s.zoom : ℤ) : ℚ)
        ((view_size s.slide_dimensions.2 (max canvas_h 1) s.zoom : ℤ) : ℚ)
        s.zoom) := by
  have hz : (0 : ℚ) < s.zoom := lt_of_lt_of_le (by norm_num) hz1
  have hvw := view_size_nonneg s.slide_dimensions.1 (max canvas_w 1) s.zoom
    (le_max_right canvas_w 1) hz
  have hvh := view_size_nonneg s.slide_dimensions.2 (max canvas_h 1) s.zoom
    (le_max_right canvas_h 1) hz
  have hview : update_view s canvas_w canvas_h =
      ({ s with
          offset_x := clamp_offset s.offset_x s.slide_dimensions.1
            (view_size s.slide_dimensions.1 (max canvas_w 1) s.zoom),
          offset_y := clamp_offset s.offset_y s.slide_dimensions.2
            (view_size s.slide_dimensions.2 (max canvas_h 1) s.zoom) },
        some (read_region
          { s with
            offset_x := clamp_offset s.offset_x s.slide_dimensions.1
              (view_size s.slide_dimensions.1 (max canvas_w 1) s.zoom),
            offset_y := clamp_offset s.offset_y s.slide_dimensions.2
              (view_size s.slide_dimensions.2 (max canvas_h 1) s.zoom) }
          (clamp_offset s.offset_x s.slide_dimensions.1
            (view_size s.slide_dimensions.1 (max canvas_w 1) s.zoom))
          (clamp_offset s.offset_y s.slide_dimensions.2
            (view_size s.slide_dimensions.2 (max canvas_h 1) s.zoom))
          ((view_size s.slide_dimensions.1 (max canvas_w 1) s.zoom : ℤ) : ℚ)
          ((view_size s.slide_dimensions.2 (max canvas_h 1) s.zoom : ℤ) : ℚ)
          s.zoom)) := by
    simp only [update_view, if_neg hload]
  refine ⟨hvw, hvh, ?_, ?_, ?_, ?_, ?_⟩ <;> rw [hview]
  · exact clamp_offset_nonneg _ _ _
  · exact clamp_offset_add_le (view_size_le _ _ _)
  · exact clamp_offset_nonneg _ _ _
  · exact clamp_offset_add_le (view_size_le _ _ _)

/-- A loaded flat image with an out-of-range prior offset, used to witness
the clamp theorem. -/
def clampWitnessState : ViewerState :=
  { slide := false, image := true, use_openslide := false,
    slide_dimensions := (1000, 800), level_count := 0, level_downsamples := [],
    zoom := 1/2, offset_x := 123456, offset_y := -50,
    grid_size := 5000, max_cols := 1, max_rows := 1 }

/-- Witness for C1 at a concrete state, canvas and zoom. -/
theorem update_view_read_within_bounds_witness :
    0 ≤ (update_view clampWitnessState 600 400).1.offset_x ∧
    (update_view clampWitnessState 600 400).1.offset_x
        + ((view_size 1000 600 (1/2) : ℤ) : ℚ) ≤ (1000 : ℚ) ∧
    0 ≤ (update_view clampWitnessState 600 400).1.offset_y ∧
    (update_view clampWitnessState 600 400).1.offset_y
        + ((view_size 800 400 (1/2) : ℤ) : ℚ) ≤ (800 : ℚ) := by
  have h := update_view_read_within_bounds clampWitnessState 600 400
    (by decide) (by norm_num [clampWitnessState]) (by norm_num [clampWitnessState])
  refine ⟨h.2.2.1, ?_, h.2.2.2.2.1, ?_⟩
  · have := h.2.2.2.1
    simpa [clampWitnessState] using this
  · have := h.2.2.2.2.2.1
    simpa [clampWitnessState] using this

/-! ### C3: zoom stepping stays within bounds and saturates -/

theorem zoom_in_dims (s : ViewerState) : (zoom_in s).slide_dimensions = s.slide_dimensions := by
  unfold zoom_in
  split <;> rfl

theorem zoom_out_dims (s : ViewerState) : (zoom_out s).slide_dimensions = s.slide_dimensions := by
  unfold zoom_out
  split <;> rfl

theorem zoom_in_zoom {s : ViewerState} (h : s.slide_dimensions.1 ≠ 0) :
    (zoom_in s).zoom = zoom_step_in s.zoom := by
  rw [zoom_in, if_pos h]

theorem zoom_out_zoom {s : ViewerState} (h : s.slide_dimensions.1 ≠ 0) :
    (zoom_out s).zoom = zoom_step_out s.zoom := by
  rw [zoom_out, if_pos h]

theorem zoom_in_iter_zoom (s : ViewerState) (hload : s.slide_dimensions.1 ≠ 0) :
    ∀ n : ℕ, (zoom_in^[n] s).zoom = zoom_step_in^[n] s.zoom := by
  intro n
  induction n with
  | zero => rfl
  | succ n ih =>
      have hdims : (zoom_in^[n] s).slide_dimensions = s.slide_dimensions := by
        clear ih
        induction n with
        | zero => rfl
        | succ n ih2 =>
            rw [Function.iterate_succ_apply', zoom_in_dims, ih2]
      rw [Function.iterate_succ_apply', Function.iterate_succ_apply',
        zoom_in_zoom (by rw [hdims]; exact hload), ih]

theorem zoom_out_iter_zoom (s : ViewerState) (hload : s.slide_dimensions.1 ≠ 0) :
    ∀ n : ℕ, (zoom_out^[n] s).zoom = zoom_step_out^[n] s.zoom := by
  intro n
  induction n with
  | zero => rfl
  | succ n ih =>
      have hdims : (zoom_out^[n] s).slide_dimensions = s.slide_dimensions := by
        clear ih
        induction n with
        | zero => rfl
        | succ n ih2 =>
            rw [Function.iterate_succ_apply', zoom_out_dims, ih2]
      rw [Function.iterate_succ_apply', Function.iterate_succ_apply',
        zoom_out_zoom (by rw [hdims]; exact hload), ih]

theorem zoom_step_in_bounds {q : ℚ} (h1 : 1/20 ≤ q) (_h2 : q ≤ 10) :
    1/20 ≤ zoom_step_in q ∧ zoom_step_in q ≤ 10 := by
  unfold zoom_step_in
  constructor
  · exact le_min (by linarith) (by norm_num)
  · exact min_le_right _ _

theorem zoom_step_out_bounds {q : ℚ} (_h1 : 1/20 ≤ q) (h2 : q ≤ 10) :
    1/20 ≤ zoom_step_out q ∧ zoom_step_out q ≤ 10 := by
  unfold zoom_step_out
  constructor
  · exact le_max_right _ _
  · exact max_le (by linarith) (by norm_num)

theorem zoom_step_in_iter_bounds {q : ℚ} (h1 : 1/20 ≤ q) (h2 : q ≤ 10) (n : ℕ) :
    1/20 ≤ zoom_step_in^[n] q ∧ zoom_step_in^[n] q ≤ 10 := by
  induction n with
  | zero => exact ⟨h1, h2⟩
  | succ n ih =>
      rw [Function.iterate_succ_apply']
      exact zoom_step_in_bounds ih.1 ih.2

theorem zoom_step_out_iter_bounds {q : ℚ} (h1 : 1/20 ≤ q) (h2 : q ≤ 10) (n : ℕ) :
    1/20 ≤ zoom_step_out^[n] q ∧ zoom_step_out^[n] q ≤ 10 := by
  induction n with
  | zero => exact ⟨h1, h2⟩
  | succ n ih =>
      rw [Function.iterate_succ_apply']
      exact zoom_step_out_bounds ih.1 ih.2

theorem zoom_step_in_sat : zoom_step_in^[6] (1 : ℚ) = 10 := by
  have h : zoom_step_in^[6] (1 : ℚ) =
      zoom_step_in (zoom_step_in (zoom_step_in (zoom_step_in
        (zoom_step_in (zoom_step_in 1))))) := rfl
  rw [h]
  norm_num [zoom_step_in, min_def]

theorem zoom_step_out_sat : zoom_step_out^[8] (1 : ℚ) = 1/20 := by
  have h : zoom_step_out^[8] (1 : ℚ) =
      zoom_step_out (zoom_step_out (zoom_step_out (zoom_step_out
        (zoom_step_out (zoom_step_out (zoom_step_out (zoom_step_out 1))))))) := rfl
  rw [h]
  norm_num [zoom_step_out, max_def]

theorem zoom_step_in_fix : zoom_step_in (10 : ℚ) = 10 := by
  norm_num [zoom_step_in, min_def]

theorem zoom_step_out_fix : zoom_step_out (1/20 : ℚ) = 1/20 := by
  norm_num [zoom_step_out, max_def]

theorem zoom_step_in_iter_sat {n : ℕ} (h : 6 ≤ n) : zoom_step_in^[n] (1 : ℚ) = 10 := by
  obtain ⟨m, rfl⟩ := Nat.exists_eq_add_of_le h
  induction m with
  | zero => exact zoom_step_in_sat
  | succ m ih =>
      have : 6 + (m + 1) = (6 + m) + 1 := by omega
      rw [this, Function.iterate_succ_apply', ih (by omega)]
      exact zoom_step_in_fix

theorem zoom_step_out_iter_sat {n : ℕ} (h : 8 ≤ n) : zoom_step_out^[n] (1 : ℚ) = 1/20 := by
  obtain ⟨m, rfl⟩ := Nat.exists_eq_add_of_le h
  induction m with
  | zero => exact zoom_step_out_sat
  | succ m ih =>
      have : 8 + (m + 1) = (8 + m) + 1 := by omega
      rw [this, Function.iterate_succ_apply', ih (by omega)]
      exact zoom_step_out_fix

/-- C3: with an image loaded, `zoom_in` sets the zoom to
`min(zoom * 1.5, 10.0)` and `zoom_out` to `max(zoom / 1.5, 0.05)`; for every
`n`, `n` repeated applications starting from `zoom = 1.0` keep the zoom in
`[0.05, 10.0]`, repeated zoom-in is exactly `10.0` from the 6th step on, and
repeated zoom-out is exactly `0.05` from the 8th step on. -/
theorem zoom_iter_spec (s : ViewerState) (hload : s.slide_dimensions.1 ≠ 0)
    (h1 : s.zoom = 1) :
    (zoom_in s).zoom = min (s.zoom * (3/2)) 10 ∧
    (zoom_out s).zoom = max (s.zoom / (3/2)) (1/20) ∧
    (∀ n : ℕ,
      1/20 ≤ (zoom_in^[n] s).zoom ∧ (zoom_in^[n] s).zoom ≤ 10 ∧
      1/20 ≤ (zoom_out^[n] s).zoom ∧ (zoom_out^[n] s).zoom ≤ 10) ∧
    (∀ n : ℕ, 6 ≤ n → (zoom_in^[n] s).zoom = 10) ∧
    (∀ n : ℕ, 8 ≤ n → (zoom_out^[n] s).zoom = 1/20) := by
  refine ⟨?_, ?_, ?_, ?_, ?_⟩
  · rw [zoom_in_zoom hload]
    rfl
  · rw [zoom_out_zoom hload]
    rfl
  · intro n
    have hin := zoom_step_in_iter_bounds (show 1/20 ≤ s.zoom by rw [h1]; norm_num)
      (by rw [h1]; norm_num) n
    have hout := zoom_step_out_iter_bounds (show 1/20 ≤ s.zoom by rw [h1]; norm_num)
      (by rw [h1]; norm_num) n
    rw [zoom_in_iter_zoom s hload, zoom_out_iter_zoom s hload]
    exact ⟨hin.1, hin.2, hout.1, hout.2⟩
  · intro n hn
    rw [zoom_in_iter_zoom s hload, h1]
    exact zoom_step_in_iter_sat hn
  · intro n hn
    rw [zoom_out_iter_zoom s hload, h1]
    exact zoom_step_out_iter_sat hn

/-- A freshly loaded state (zoom 1) used to witness the zoom theorem. -/
def zoomWitnessState : ViewerState :=
  { slide := false, image := true, use_openslide := false,
    slide_dimensions := (2000, 1500), level_count := 0, level_downsamples := [],
    zoom := 1, offset_x := 0, offset_y := 0,
    grid_size := 5000, max_cols := 1, max_rows := 1 }

/-- Witness for C3 at a concrete state and concrete iteration counts. -/
theorem zoom_iter_spec_witness :
    1/20 ≤ (zoom_in^[9] zoomWitnessState).zoom ∧
    (zoom_in^[9] zoomWitnessState).zoom = 10 ∧
    (zoom_out^[11] zoomWitnessState).zoom = 1/20 := by
  have h := zoom_iter_spec zoomWitnessState (by decide) rfl
  exact ⟨(h.2.2.1 9).1, h.2.2.2.1 9 (by norm_num), h.2.2.2.2 11 (by norm_num)⟩

/-! ### C4 and C5: sector navigation -/

/-- C4: for a loaded image and a valid sector `(col, row)`, `goto_sector`
sets the offset to `cellOrigin + cellSize/2 - (canvasSize/zoom)/2` on each
axis — so before clamping the viewport center is exactly
`(col*gridSize + gridSize/2, row*gridSize + gridSize/2)` — and then runs the
`update_view` refresh, which clamps that offset. -/
theorem goto_sector_centers (s : ViewerState) (canvas_w canvas_h : ℕ) (col row : ℤ)
    (hload : s.slide_dimensions.1 ≠ 0)
    (hcw : 1 ≤ canvas_w) (hch : 1 ≤ canvas_h)
    (hc0 : 0 ≤ col) (hc1 : col < (s.max_cols : ℤ))
    (hr0 : 0 ≤ row) (hr1 : row < (s.max_rows : ℤ)) :
    goto_sector s canvas_w canvas_h (some col) (some row) =
      ((update_view { s with
          offset_x := sector_center col s.grid_size - (canvas_w : ℚ) / s.zoom / 2,
          offset_y := sector_center row s.grid_size - (canvas_h : ℚ) / s.zoom / 2 }
        canvas_w canvas_h).1, GotoResult.ok) ∧
    (sector_center col s.grid_size - (canvas_w : ℚ) / s.zoom / 2)
        + ((canvas_w : ℚ) / s.zoom) / 2
      = (col : ℚ) * (s.grid_size : ℚ) + (s.grid_size : ℚ) / 2 ∧
    (sector_center row s.grid_size - (canvas_h : ℚ) / s.zoom / 2)
        + ((canvas_h : ℚ) / s.zoom) / 2
      = (row : ℚ) * (s.grid_size : ℚ) + (s.grid_size : ℚ) / 2 := by
  have hmw : max canvas_w 1 = canvas_w := max_eq_left hcw
  have hmh : max canvas_h 1 = canvas_h := max_eq_left hch
  refine ⟨?_, by rw [sector_center]; ring, by rw [sector_center]; ring⟩
  rw [goto_sector, if_neg hload]
  simp only [hmw, hmh]
  rw [if_neg (by push_neg; exact ⟨hc0, hc1, hr0, hr1⟩)]

/-- C5: for a loaded image, `goto_sector` with `col` or `row` outside
`[0, maxCols) × [0, maxRows)` reports a bounds error and leaves the state
unchanged, and a non-numeric entry (failed `int(...)` parse) reports an
input error and leaves the state unchanged. -/
theorem goto_sector_rejects (s : ViewerState) (canvas_w canvas_h : ℕ)
    (hload : s.slide_dimensions.1 ≠ 0) :
    (∀ col row : ℤ,
      (col < 0 ∨ (s.max_cols : ℤ) ≤ col ∨ row < 0 ∨ (s.max_rows : ℤ) ≤ row) →
      goto_sector s canvas_w canvas_h (some col) (some row) = (s, .errBounds)) ∧
    (∀ spin_col spin_row : Option ℤ, (spin_col = none ∨ spin_row = none) →
      goto_sector s canvas_w canvas_h spin_col spin_row = (s, .errValue)) := by
  constructor
  · intro col row hout
    rw [goto_sector, if_neg hload]
    simp only [if_pos hout]
  · intro spin_col spin_row hnone
    rcases hnone with h | h
    · subst h
      cases spin_row <;> simp [goto_sector, hload]
    · subst h
      cases spin_col <;> simp [goto_sector, hload]

/-- A loaded state with a 4 × 3 sector layout (20000 × 15000 image, grid
size 5000), used to witness the sector-navigation theorems. -/
def sectorWitnessState : ViewerState :=
  { slide := false, image := true, use_openslide := false,
    slide_dimensions := (20000, 15000), level_count := 0, level_downsamples := [],
    zoom := 1, offset_x := 0, offset_y := 0,
    grid_size := 5000, max_cols := 4, max_rows := 3 }

/-- Witness for C4: sector `(2, 1)` of the 20000 × 15000 / 5000 layout is
centered in the viewport before clamping (center `(12500, 7500)`). -/
theorem goto_sector_centers_witness :
    goto_sector sectorWitnessState 800 600 (some 2) (some 1) =
      ((update_view { sectorWitnessState with
          offset_x := sector_center 2 sectorWitnessState.grid_size
            - ((800 : ℕ) : ℚ) / sectorWitnessState.zoom / 2,
          offset_y := sector_center 1 sectorWitnessState.grid_size
            - ((600 : ℕ) : ℚ) / sectorWitnessState.zoom / 2 } 800 600).1,
        GotoResult.ok) ∧
    (sector_center 2 sectorWitnessState.grid_size
        - ((800 : ℕ) : ℚ) / sectorWitnessState.zoom / 2)
      + (((800 : ℕ) : ℚ) / sectorWitnessState.zoom) / 2
      = ((2 : ℤ) : ℚ) * (sectorWitnessState.grid_size : ℚ)
        + (sectorWitnessState.grid_size : ℚ) / 2 ∧
    (sector_center 1 sectorWitnessState.grid_size
        - ((600 : ℕ) : ℚ) / sectorWitnessState.zoom / 2)
      + (((600 : ℕ) : ℚ) / sectorWitnessState.zoom) / 2
      = ((1 : ℤ) : ℚ) * (sectorWitnessState.grid_size : ℚ)
        + (sectorWitnessState.grid_size : ℚ) / 2 :=
  goto_sector_centers sectorWitnessState 800 600 2 1 (by decide) (by norm_num)
    (by norm_num) (by decide) (by decide) (by decide) (by decide)

/-- Witness for C5: column 7 is out of range for a 4-column layout, and a
non-numeric column entry is rejected, both leaving the state unchanged. -/
theorem goto_sector_rejects_witness :
    goto_sector sectorWitnessState 800 600 (some 7) (some 1) =
      (sectorWitnessState, .errBounds) ∧
    goto_sector sectorWitnessState 800 600 none (some 1) =
      (sectorWitnessState, .errValue) := by
  have h := goto_sector_rejects sectorWitnessState 800 600 (by decide)
  exact ⟨h.1 7 1 (by right; left; norm_num [sectorWitnessState]),
    h.2 none (some 1) (Or.inl rfl)⟩

/-! ### C2: level selection -/

/-- Invariant-carrying specification of the `get_best_level` scan.  `D`
abstracts the absolute differences of the original downsample list; the
accumulator `(bl, md)` is the first argmin of the already-scanned prefix
`[0, k)`.  The result is the first index minimizing `D` over the whole
range. -/
theorem bestLevelLoop_spec (t : ℚ) :
    ∀ (rest : List ℚ) (k bl : ℕ) (md : ℚ) (D : ℕ → ℚ),
      (∀ j, j < rest.length → |rest.getD j 0 - t| = D (k + j)) →
      md = D bl → bl < k →
      (∀ j, j < k → md ≤ D j) → (∀ j, j < bl → md < D j) →
      bestLevelLoop t rest k bl md < k + rest.length ∧
      (∀ j, j < k + rest.length → D (bestLevelLoop t rest k bl md) ≤ D j) ∧
      (∀ j, j < bestLevelLoop t rest k bl md → D (bestLevelLoop t rest k bl md) < D j) := by
  intro rest
  induction rest with
  | nil =>
      intro k bl md D _hD hmd hblk hmin hstrict
      have hres : bestLevelLoop t [] k bl md = bl := rfl
      refine ⟨?_, ?_, ?_⟩
      · rw [hres]
        simpa using hblk
      · intro j hj
        rw [hres, ← hmd]
        exact hmin j (by simpa using hj)
      · intro j hj
        rw [hres] at hj ⊢
        rw [← hmd]
        exact hstrict j hj
  | cons d rest ih =>
      intro k bl md D hD hmd hblk hmin hstrict
      have hd : |d - t| = D k := by
        have h0 := hD 0 (by simp)
        simpa using h0
      have hlen : (k + 1) + rest.length = k + (d :: rest).length := by
        simp [List.length_cons]
        omega
      have hD1 : ∀ j, j < rest.length → |rest.getD j 0 - t| = D ((k + 1) + j) := by
        intro j hj
        have h1 := hD (j + 1) (by simp; omega)
        have h2 : k + (j + 1) = (k + 1) + j := by omega
        rw [h2] at h1
        simpa using h1
      by_cases hcase : |d - t| < md
      · have hres : bestLevelLoop t (d :: rest) k bl md
            = bestLevelLoop t rest (k + 1) k |d - t| := by
          simp only [bestLevelLoop, if_pos hcase]
        have key := ih (k + 1) k (|d - t|) D hD1 hd (Nat.lt_succ_self k)
          (by
            intro j hj
            rcases Nat.lt_succ_iff_lt_or_eq.mp hj with h | h
            · exact le_of_lt (lt_of_lt_of_le hcase (hmin j h))
            · rw [h, ← hd])
          (by
            intro j hj
            exact lt_of_lt_of_le hcase (hmin j hj))
        rw [hres]
        rw [hlen] at key
        exact key
      · have hres : bestLevelLoop t (d :: rest) k bl md
            = bestLevelLoop t rest (k + 1) bl md := by
          simp only [bestLevelLoop, if_neg hcase]
        have key := ih (k + 1) bl md D hD1 hmd (Nat.lt_succ_of_lt hblk)
          (by
            intro j hj
            rcases Nat.lt_succ_iff_lt_or_eq.mp hj with h | h
            · exact hmin j h
            · rw [h, ← hd]
              exact not_lt.mp hcase)
          hstrict
        rw [hres]
        rw [hlen] at key
        exact key

/-- The result of `get_best_level` on a pyramidal image with a non-empty
downsample list is the first index minimizing `|downsample - 1/zoom|`. -/
theorem get_best_level_argmin (s : ViewerState) (z : ℚ)
    (hos : s.use_openslide = true) (hne : s.level_downsamples ≠ []) :
    get_best_level s z < s.level_downsamples.length ∧
    (∀ j, j < s.level_downsamples.length →
      |s.level_downsamples.getD (get_best_level s z) 0 - 1/z|
        ≤ |s.level_downsamples.getD j 0 - 1/z|) ∧
    (∀ j, j < get_best_level s z →
      |s.level_downsamples.getD (get_best_level s z) 0 - 1/z|
        < |s.level_downsamples.getD j 0 - 1/z|) := by
  obtain ⟨d0, tail, hds⟩ := List.exists_cons_of_ne_nil hne
  have hexp : get_best_level s z = bestLevelLoop (1/z) tail 1 0 |d0 - 1/z| := by
    rw [get_best_level, hos]
    simp only [Bool.true_eq_false, if_false, hds, List.getD_cons_zero]
    simp only [bestLevelLoop, lt_self_iff_false, if_false]
  have key := bestLevelLoop_spec (1/z) tail 1 0 (|d0 - 1/z|)
    (fun j => |(d0 :: tail).getD j 0 - 1/z|)
    (by
      intro j hj
      have h2 : 1 + j = j + 1 := by omega
      rw [h2]
      simp)
    (by simp)
    Nat.one_pos
    (by
      intro j hj
      have h0 : j = 0 := by omega
      subst h0
      simp)
    (by
      intro j hj
      exact absurd hj (Nat.not_lt_zero j))
  rw [hexp, hds]
  have hlen : (d0 :: tail).length = 1 + tail.length := by
    simp [List.length_cons]
    omega
  rw [hlen]
  exact key

/-- For strictly increasing downsamples and a target `1/zoom` bracketed by
two adjacent downsamples, the selected level switches exactly where the
target crosses the midpoint of the two downsamples, ties to the lower
index. -/
theorem get_best_level_switch (s : ViewerState) (z : ℚ) (hos : s.use_openslide = true)
    (hmono : ∀ a b : ℕ, a < b → b < s.level_downsamples.length →
      s.level_downsamples.getD a 0 < s.level_downsamples.getD b 0)
    (i : ℕ) (hi : i + 1 < s.level_downsamples.length)
    (hlo : s.level_downsamples.getD i 0 ≤ 1/z)
    (hhi : 1/z ≤ s.level_downsamples.getD (i+1) 0) :
    get_best_level s z =
      if 1/z ≤ (s.level_downsamples.getD i 0 + s.level_downsamples.getD (i+1) 0) / 2
      then i else i + 1 := by
  have hne : s.level_downsamples ≠ [] := by
    intro h
    rw [h] at hi
    simp at hi
  obtain ⟨hrlen, hminall, hfirst⟩ := get_best_level_argmin s z hos hne
  set ds := s.level_downsamples with hds
  set t := 1/z with ht
  set r := get_best_level s z with hr
  set A := ds.getD i 0 with hA
  set B := ds.getD (i+1) 0 with hB
  have habsA : |A - t| = t - A := by
    rw [abs_of_nonpos (by linarith)]
    ring
  have habsB : |B - t| = B - t := abs_of_nonneg (by linarith)
  split_ifs with hmid
  · rcases lt_trichotomy r i with hlt | heq | hgt
    · exfalso
      have hmr : ds.getD r 0 < A := hmono r i hlt (by omega)
      have h1 : |ds.getD r 0 - t| ≤ |A - t| := hminall i (by omega)
      have h2 : |ds.getD r 0 - t| = t - ds.getD r 0 := by
        rw [abs_of_nonpos (by linarith)]
        ring
      rw [h2, habsA] at h1
      linarith
    · exact heq
    · exfalso
      have h1 : |ds.getD r 0 - t| < |A - t| := hfirst i hgt
      rw [habsA] at h1
      rcases eq_or_lt_of_le (Nat.succ_le_of_lt hgt) with heq1 | hgt1
      · have h2 : |ds.getD r 0 - t| = B - t := by
          rw [← heq1, ← hB]
          exact habsB
        linarith
      · have hmr : B < ds.getD r 0 := hmono (i+1) r hgt1 hrlen
        have h2 : |ds.getD r 0 - t| = ds.getD r 0 - t := abs_of_nonneg (by linarith)
        linarith
  · push_neg at hmid
    rcases lt_trichotomy r (i+1) with hlt | heq | hgt
    · exfalso
      have hle : r ≤ i := by omega
      have h1 : |ds.getD r 0 - t| ≤ B - t := by
        have h0 := hminall (i+1) hi
        rwa [habsB] at h0
      have hdsr : ds.getD r 0 ≤ A := by
        rcases eq_or_lt_of_le hle with he | hl
        · rw [he]
        · exact le_of_lt (hmono r i hl (by omega))
      have h2 : |ds.getD r 0 - t| = t - ds.getD r 0 := by
        rw [abs_of_nonpos (by linarith)]
        ring
      linarith
    · exact heq
    · exfalso
      have hmr : B < ds.getD r 0 := hmono (i+1) r hgt hrlen
      have h1 : |ds.getD r 0 - t| < B - t := by
        have h0 := hfirst (i+1) hgt
        rwa [habsB] at h0
      have h2 : |ds.getD r 0 - t| = ds.getD r 0 - t := abs_of_nonneg (by linarith)
      linarith

/-- C2 (amended): `get_best_level` returns 0 for a non-pyramidal image; for
a pyramidal image with a non-empty level list it returns the first index
minimizing `|downsample - 1/zoom|` (ties to the lower index); consequently,
for strictly increasing downsamples and a zoom whose inverse lies between
two adjacent downsamples, the selected level switches exactly where
`1/zoom` crosses the midpoint of the two adjacent downsamples (not the
midpoint of the inverse-downsamples), with the tie at the midpoint going to
the lower index. -/
theorem get_best_level_spec (s : ViewerState) (z : ℚ) :
    (s.use_openslide = false → get_best_level s z = 0) ∧
    (s.use_openslide = true → s.level_downsamples ≠ [] →
      get_best_level s z < s.level_downsamples.length ∧
      (∀ j, j < s.level_downsamples.length →
        |s.level_downsamples.getD (get_best_level s z) 0 - 1/z|
          ≤ |s.level_downsamples.getD j 0 - 1/z|) ∧
      (∀ j, j < get_best_level s z →
        |s.level_downsamples.getD (get_best_level s z) 0 - 1/z|
          < |s.level_downsamples.getD j 0 - 1/z|)) ∧
    (s.use_openslide = true →
      (∀ a b : ℕ, a < b → b < s.level_downsamples.length →
        s.level_downsamples.getD a 0 < s.level_downsamples.getD b 0) →
      ∀ i : ℕ, i + 1 < s.level_downsamples.length →
        s.level_downsamples.getD i 0 ≤ 1/z →
        1/z ≤ s.level_downsamples.getD (i+1) 0 →
        get_best_level s z =
          if 1/z ≤ (s.level_downsamples.getD i 0
              + s.level_downsamples.getD (i+1) 0) / 2
          then i else i + 1) := by
  refine ⟨?_, ?_, ?_⟩
  · intro h
    rw [get_best_level, h]
    rfl
  · intro hos hne
    exact get_best_level_argmin s z hos hne
  · intro hos hmono i hi hlo hhi
    exact get_best_level_switch s z hos hmono i hi hlo hhi

/-- A pyramidal state with three levels, downsamples `[1, 4, 16]`. -/
def pyramidWitnessState : ViewerState :=
  { slide := true, image := false, use_openslide := true,
    slide_dimensions := (40000, 30000), level_count := 3,
    level_downsamples := [1, 4, 16], zoom := 1, offset_x := 0, offset_y := 0,
    grid_size := 5000, max_cols := 8, max_rows := 6 }

/-- Witness for C2: the flat branch at a concrete flat state, and the
midpoint rule at a concrete pyramid and zoom. -/
theorem get_best_level_spec_witness :
    get_best_level clampWitnessState 1 = 0 ∧
    get_best_level pyramidWitnessState (1/2) =
      (if 1/((1:ℚ)/2) ≤ (pyramidWitnessState.level_downsamples.getD 0 0
          + pyramidWitnessState.level_downsamples.getD (0+1) 0) / 2
       then 0 else 0 + 1) :=
  ⟨(get_best_level_spec clampWitnessState 1).1 rfl,
   (get_best_level_spec pyramidWitnessState (1/2)).2.2 rfl
    (by
      intro a b hab hb
      have hb3 : b < 3 := by
        simpa [pyramidWitnessState] using hb
      interval_cases b <;> interval_cases a <;> norm_num [pyramidWitnessState])
    0 (by norm_num [pyramidWitnessState]) (by norm_num [pyramidWitnessState])
    (by norm_num [pyramidWitnessState])⟩

/-- A pyramidal state with two levels, downsamples `[1, 4]`. -/
def twoLevelState : ViewerState :=
  { slide := true, image := false, use_openslide := true,
    slide_dimensions := (10000, 8000), level_count := 2,
    level_downsamples := [1, 4], zoom := 1, offset_x := 0, offset_y := 0,
    grid_size := 5000, max_cols := 2, max_rows := 2 }

/-- C2 counterexample: with downsamples `[1, 4]` the inverse-downsamples are
`1` and `1/4`, with midpoint `5/8`.  The zooms `3/5` and `13/20` straddle
that midpoint yet both select level 0 — no switch happens there.  The
actual switch is at zoom `2/5` (where `1/zoom` crosses the downsample
midpoint `5/2`): zoom `2/5` still selects level 0 (tie to the lower index)
while zoom `39/100` selects level 1; and `2/5` is not the midpoint `5/8` of
the inverse-downsamples. -/
theorem get_best_level_midpoint_counterexample :
    (3/5 : ℚ) < (1/1 + 1/4) / 2 ∧ ((1/1 + 1/4) / 2 : ℚ) < 13/20 ∧
    get_best_level twoLevelState (3/5) = 0 ∧
    get_best_level twoLevelState (13/20) = 0 ∧
    get_best_level twoLevelState (2/5) = 0 ∧
    get_best_level twoLevelState (39/100) = 1 ∧
    ((2 : ℚ)/5) ≠ (1/1 + 1/4) / 2 := by
  refine ⟨by norm_num, by norm_num, ?_, ?_, ?_, ?_, by norm_num⟩ <;>
    norm_num [get_best_level, twoLevelState, bestLevelLoop, abs_eq_max_neg, max_def]

/-! ### C6: tracking bucket selection -/

theorem pyInt_intCast (n : ℤ) : pyInt ((n : ℚ)) = n := by
  rw [pyInt]
  split <;> simp

/-- Python `min` with a key: the result is an element of the scanned values
and its key is minimal among them. -/
theorem pyMinKey_mem_le (key : ℤ → ℤ) :
    ∀ (l : List ℤ) (best : ℤ),
      pyMinKey key l best ∈ best :: l ∧
      ∀ y ∈ best :: l, key (pyMinKey key l best) ≤ key y := by
  intro l
  induction l with
  | nil =>
      intro best
      constructor
      · simp [pyMinKey]
      · intro y hy
        rcases List.mem_singleton.mp hy with rfl
        simp [pyMinKey]
  | cons x rest ih =>
      intro best
      by_cases h : key x < key best
      · have hred : pyMinKey key (x :: rest) best = pyMinKey key rest x := by
          simp [pyMinKey, h]
        obtain ⟨hmem, hle⟩ := ih x
        constructor
        · rw [hred]
          exact List.mem_cons_of_mem best hmem
        · intro y hy
          rw [hred]
          rcases List.mem_cons.mp hy with rfl | hy2
          · exact le_of_lt (lt_of_le_of_lt (hle x (List.mem_cons_self x rest)) h)
          · exact hle y hy2
      · have hred : pyMinKey key (x :: rest) best = pyMinKey key rest best := by
          simp [pyMinKey, h]
        obtain ⟨hmem, hle⟩ := ih best
        constructor
        · rw [hred]
          rcases List.mem_cons.mp hmem with h1 | h1
          · rw [h1]
            exact List.mem_cons_self best (x :: rest)
          · exact List.mem_cons_of_mem best (List.mem_cons_of_mem x h1)
        · intro y hy
          rw [hred]
          rcases List.mem_cons.mp hy with rfl | hy2
          · exact hle y (List.mem_cons_self y rest)
          · rcases List.mem_cons.mp hy2 with rfl | hy3
            · exact le_trans (hle best (List.mem_cons_self best rest)) (not_lt.mp h)
            · exact hle y (List.mem_cons_of_mem best hy3)

theorem get_tracking_level_mem_le (p : ℤ) :
    get_tracking_level p ∈ tracking_levels ∧
    ∀ b ∈ tracking_levels, |get_tracking_level p - p| ≤ |b - p| := by
  have h := pyMinKey_mem_le (fun b => |b - p|) [40, 60, 80] 10
  exact h

/-- C6 (amended): `mark_visited` computes the zoom-percent as
`int(zoom * 100)` (truncation toward zero, not rounding) and maps it to the
configured bucket with minimum absolute difference, ties resolved by the
declared order of `[10, 40, 60, 80]` (percent 25 maps to 10, 50 to 40,
70 to 60); a visit at zoom `42/100` marks bucket 40, a visit at zoom `1/2`
marks bucket 40, and only the selected bucket's grid is modified. -/
theorem tracking_bucket_spec :
    (∀ p : ℤ, get_tracking_level p ∈ tracking_levels ∧
      ∀ b ∈ tracking_levels, |get_tracking_level p - p| ≤ |b - p|) ∧
    get_tracking_level 25 = 10 ∧
    get_tracking_level 50 = 40 ∧
    get_tracking_level 70 = 60 ∧
    (∀ s : MapState, s.zoom = 42/100 → visited_bucket s = 40) ∧
    (∀ s : MapState, s.zoom = 1/2 → visited_bucket s = 40) ∧
    (∀ (s : MapState) (canvas_w canvas_h : ℕ) (b : ℤ), b ≠ visited_bucket s →
      (mark_visited s canvas_w canvas_h).tracking_grids b = s.tracking_grids b) := by
  have h42 : get_tracking_level 42 = 40 := by decide
  have h50 : get_tracking_level 50 = 40 := by decide
  refine ⟨get_tracking_level_mem_le, by decide, h50, by decide, ?_, ?_, ?_⟩
  · intro s hz
    rw [visited_bucket, hz]
    rw [show ((42 : ℚ)/100 * 100) = ((42 : ℤ) : ℚ) by norm_num, pyInt_intCast]
    exact h42
  · intro s hz
    rw [visited_bucket, hz]
    rw [show ((1 : ℚ)/2 * 100) = ((50 : ℤ) : ℚ) by norm_num, pyInt_intCast]
    exact h50
  · intro s canvas_w canvas_h b hb
    rw [mark_visited]
    split
    · rfl
    · split
      · rfl
      · simp [hb]

/-- A concrete tracking state at zoom `259/1000` (25.9 %), flat image
500 × 400, cell size 100. -/
def roundCounterexampleState : MapState :=
  { use_openslide := false, slide_dimensions := (500, 400),
    level_downsamples := [], zoom := 259/1000, offset_x := 0, offset_y := 0,
    grid_cell_size := 100,
    tracking_grids := initialize_tracking (500, 400) 100 }

/-- C6 counterexample: at zoom `259/1000` the code truncates
`zoom * 100 = 25.9` to percent 25 and marks bucket 10, while the claimed
`round(zoom*100)` gives percent 26 and bucket 40 — a different bucket. -/
theorem tracking_round_counterexample :
    pyInt ((259/1000 : ℚ) * 100) = 25 ∧
    round ((259/1000 : ℚ) * 100) = 26 ∧
    get_tracking_level (pyInt ((259/1000 : ℚ) * 100)) = 10 ∧
    get_tracking_level (round ((259/1000 : ℚ) * 100)) = 40 ∧
    visited_bucket roundCounterexampleState = 10 ∧
    (10 : ℤ) ≠ 40 := by
  have h259 : ((259 : ℚ)/1000 * 100) = 259/10 := by norm_num
  have hfl : (⌊(259/10 : ℚ)⌋ : ℤ) = 25 := by
    rw [Int.floor_eq_iff]
    norm_num
  have hfloor : pyInt ((259/1000 : ℚ) * 100) = 25 := by
    rw [h259, pyInt_of_nonneg (by norm_num), hfl]
  have hround : round ((259/1000 : ℚ) * 100) = 26 := by
    rw [h259, round_eq]
    rw [show ((259 : ℚ)/10 + 1/2) = 132/5 by norm_num]
    rw [Int.floor_eq_iff]
    norm_num
  refine ⟨hfloor, hround, ?_, ?_, ?_, by norm_num⟩
  · rw [hfloor]
    decide
  · rw [hround]
    decide
  · rw [visited_bucket]
    have hzz : roundCounterexampleState.zoom * 100 = (259/10 : ℚ) := by
      norm_num [roundCounterexampleState]
    rw [hzz, pyInt_of_nonneg (by norm_num), hfl]
    decide

/-! ### C7: read_region target size -/

/-- C7 (amended): `read_region` rescales its result to exactly
`int(width*zoom) × int(height*zoom)` (truncation toward zero, not rounding)
on the pyramidal path, and on the flat path the clipped crop extents
`min(x+width, imgW) - x` and `min(y+height, imgH) - y` replace `width` and
`height` in the formula. -/
theorem read_region_target_size (s : ViewerState) (x y width height zoom : ℚ) :
    (s.use_openslide = true →
      read_region s x y width height zoom =
        ⟨pyInt (width * zoom), pyInt (height * zoom)⟩) ∧
    (s.use_openslide = false →
      read_region s x y width height zoom =
        ⟨pyInt ((min (x + width) ((s.slide_dimensions.1 : ℚ)) - x) * zoom),
         pyInt ((min (y + height) ((s.slide_dimensions.2 : ℚ)) - y) * zoom)⟩) := by
  constructor
  · intro h
    rw [read_region, h]
    rfl
  · intro h
    rw [read_region, h]
    rfl

/-- Witness for C7: the pyramidal branch at a three-level pyramid, the flat
branch at a flat state. -/
theorem read_region_target_size_witness :
    read_region pyramidWitnessState 0 0 300 200 (1/2) =
      ⟨pyInt ((300 : ℚ) * (1/2)), pyInt ((200 : ℚ) * (1/2))⟩ ∧
    read_region clampWitnessState 0 0 300 200 (1/2) =
      ⟨pyInt ((min ((0 : ℚ) + 300) ((clampWitnessState.slide_dimensions.1 : ℚ)) - 0) * (1/2)),
       pyInt ((min ((0 : ℚ) + 200) ((clampWitnessState.slide_dimensions.2 : ℚ)) - 0) * (1/2))⟩ :=
  ⟨(read_region_target_size pyramidWitnessState 0 0 300 200 (1/2)).1 rfl,
   (read_region_target_size clampWitnessState 0 0 300 200 (1/2)).2 rfl⟩

/-- A single-level pyramidal state (downsample list `[1]`). -/
def pyrOneLevelState : ViewerState :=
  { slide := true, image := false, use_openslide := true,
    slide_dimensions := (100, 100), level_count := 1, level_downsamples := [1],
    zoom := 1, offset_x := 0, offset_y := 0,
    grid_size := 5000, max_cols := 1, max_rows := 1 }

/-- C7 counterexample: a read of width 3 at zoom `9/10` is rescaled to
width `int(2.7) = 2`, not `round(2.7) = 3` as the claim states. -/
theorem read_region_round_counterexample :
    (read_region pyrOneLevelState 0 0 3 3 (9/10)).width = 2 ∧
    round ((3 : ℚ) * (9/10)) = 3 ∧
    (2 : ℤ) ≠ 3 := by
  refine ⟨?_, ?_, by norm_num⟩
  · have h : (read_region pyrOneLevelState 0 0 3 3 (9/10)).width
        = pyInt ((3 : ℚ) * (9/10)) := rfl
    rw [h, show ((3 : ℚ) * (9/10)) = 27/10 by norm_num,
      pyInt_of_nonneg (by norm_num), Int.floor_eq_iff]
    norm_num
  · rw [round_eq, show ((3 : ℚ) * (9/10) + 1/2) = 16/5 by norm_num, Int.floor_eq_iff]
    norm_num

/-! ### C8: state after a failed load -/

/-- C8 (amended): a failed load (decode exception after the previous source
was released) clears the source handle, the decoded image and the backend
flag — so no dangling handle remains — but `slide_dimensions`,
`level_count` and `level_downsamples` keep their prior values, and the view
state is untouched; consequently subsequent operations do not behave as if
no image were loaded: with stale nonzero dimensions, `zoom_in` still
mutates the zoom. -/
theorem load_fail_state (s : ViewerState) :
    (load_image s .loadFail).slide = false ∧
    (load_image s .loadFail).image = false ∧
    (load_image s .loadFail).use_openslide = false ∧
    (load_image s .loadFail).slide_dimensions = s.slide_dimensions ∧
    (load_image s .loadFail).level_count = s.level_count ∧
    (load_image s .loadFail).level_downsamples = s.level_downsamples ∧
    (load_image s .loadFail).zoom = s.zoom ∧
    (load_image s .loadFail).offset_x = s.offset_x ∧
    (load_image s .loadFail).offset_y = s.offset_y ∧
    (s.slide_dimensions.1 ≠ 0 →
      (zoom_in (load_image s .loadFail)).zoom = zoom_step_in s.zoom) := by
  refine ⟨rfl, rfl, rfl, rfl, rfl, rfl, rfl, rfl, rfl, ?_⟩
  intro h
  rw [zoom_in_zoom (show (load_image s .loadFail).slide_dimensions.1 ≠ 0 from h)]
  rfl

/-- A successfully loaded flat state (100 × 100 image, zoom 1). -/
def loadedFlatState : ViewerState :=
  { slide := false, image := true, use_openslide := false,
    slide_dimensions := (100, 100), level_count := 0, level_downsamples := [],
    zoom := 1, offset_x := 0, offset_y := 0,
    grid_size := 5000, max_cols := 1, max_rows := 1 }

/-- Witness for C8 at a concrete loaded state. -/
theorem load_fail_state_witness :
    (load_image loadedFlatState .loadFail).slide_dimensions
      = loadedFlatState.slide_dimensions ∧
    (zoom_in (load_image loadedFlatState .loadFail)).zoom
      = zoom_step_in loadedFlatState.zoom := by
  have h := load_fail_state loadedFlatState
  exact ⟨h.2.2.2.1, h.2.2.2.2.2.2.2.2.2 (by decide)⟩

/-- C8 counterexample: after a failed load over a previously loaded
100 × 100 image, the dimensions are not cleared (still `(100, 100)`, not
`(0, 0)`), and `zoom_in` still changes the zoom — the viewer does not
behave as if no image were loaded. -/
theorem load_fail_counterexample :
    (load_image loadedFlatState .loadFail).slide_dimensions = (100, 100) ∧
    ((100, 100) : ℕ × ℕ) ≠ (0, 0) ∧
    (zoom_in (load_image loadedFlatState .loadFail)).zoom = 3/2 ∧
    (zoom_in (load_image loadedFlatState .loadFail)).zoom
      ≠ (load_image loadedFlatState .loadFail).zoom := by
  have hz : (zoom_in (load_image loadedFlatState .loadFail)).zoom = 3/2 := by
    rw [zoom_in_zoom (by decide)]
    rw [show (load_image loadedFlatState .loadFail).zoom = 1 from rfl]
    rw [zoom_step_in]
    norm_num [min_def]
  refine ⟨rfl, by decide, hz, ?_⟩
  rw [hz, show (load_image loadedFlatState .loadFail).zoom = 1 from rfl]
  norm_num

/-! ### C9: tracking grid allocation -/

/-- C9 (amended): on load, each bucket of `[10, 40, 60, 80]` is allocated an
all-false occupancy grid of exactly `floor(w/cell) + 1` columns by
`floor(h/cell) + 1` rows (which equals `ceil(dim/cell)` only when `cell`
does not divide `dim`), for every image width and height. -/
theorem initialize_tracking_spec (dims : ℕ × ℕ) (cell : ℕ) (b : ℤ) (i j : ℤ)
    (hb : b ∈ tracking_levels) :
    (initialize_tracking dims cell b).map TrackGrid.cols = some (dims.1 / cell + 1) ∧
    (initialize_tracking dims cell b).map TrackGrid.rows = some (dims.2 / cell + 1) ∧
    (initialize_tracking dims cell b).map (fun g => g.cell i j) = some false := by
  rw [initialize_tracking]
  simp [hb]

/-- Witness for C9 at a 250 × 130 image with cell size 100 and bucket 40. -/
theorem initialize_tracking_spec_witness :
    (initialize_tracking (250, 130) 100 40).map TrackGrid.cols = some 3 ∧
    (initialize_tracking (250, 130) 100 40).map TrackGrid.rows = some 2 ∧
    (initialize_tracking (250, 130) 100 40).map (fun g => g.cell 1 2) = some false := by
  have h := initialize_tracking_spec (250, 130) 100 40 1 2 (by decide)
  exact ⟨h.1, h.2.1, h.2.2⟩

/-- C9 counterexample: for a 200 × 200 image with cell size 100 the
allocated grid has `200 // 100 + 1 = 3` columns, while
`ceil(200/100) = 2` — the claimed size is wrong when the cell size divides
the dimension. -/
theorem initialize_tracking_ceil_counterexample :
    (initialize_tracking (200, 200) 100 10).map TrackGrid.cols = some 3 ∧
    (⌈(200 : ℚ)/100⌉ : ℤ) = 2 ∧
    (3 : ℕ) ≠ 2 := by
  refine ⟨rfl, ?_, by norm_num⟩
  rw [show ((200 : ℚ)/100) = ((2 : ℤ) : ℚ) by norm_num, Int.ceil_intCast]

/-! ### C10: the marked cell rectangle stays inside the grid -/

/-- A tracking state at zoom `42/100`. -/
def zoom42State : MapState :=
  { use_openslide := false, slide_dimensions := (500, 400),
    level_downsamples := [], zoom := 42/100, offset_x := 0, offset_y := 0,
    grid_cell_size := 100,
    tracking_grids := initialize_tracking (500, 400) 100 }

/-- A tracking state at zoom `1/2`. -/
def zoom50State : MapState :=
  { use_openslide := false, slide_dimensions := (500, 400),
    level_downsamples := [], zoom := 1/2, offset_x := 150, offset_y := 120,
    grid_cell_size := 100,
    tracking_grids := initialize_tracking (500, 400) 100 }

/-- Witness for C6 at concrete zooms `42%` and `50%`, and at a bucket other
than the selected one. -/
theorem tracking_bucket_spec_witness :
    visited_bucket zoom42State = 40 ∧
    visited_bucket zoom50State = 40 ∧
    (mark_visited zoom50State 600 400).tracking_grids 80
      = zoom50State.tracking_grids 80 := by
  have h42 := tracking_bucket_spec.2.2.2.2.1 zoom42State rfl
  have h50 := tracking_bucket_spec.2.2.2.2.2.1 zoom50State rfl
  refine ⟨h42, h50, ?_⟩
  exact tracking_bucket_spec.2.2.2.2.2.2 zoom50State 600 400 80
    (by rw [h50]; norm_num)

/-- C10: for a state satisfying the post-clamp invariant
(`0 ≤ offset ≤ dimension` on both axes), with grids as allocated by
`initialize_tracking`, the inclusive cell rectangle computed by
`mark_visited` lies within the selected bucket grid's bounds on both axes:
`0 ≤ grid_x1 ≤ grid_x2 ≤ cols - 1` and `0 ≤ grid_y1 ≤ grid_y2 ≤ rows - 1`,
so the slice assignment never indexes outside the grid. -/
theorem visit_rect_in_bounds (s : MapState) (canvas_w canvas_h : ℕ) (g : TrackGrid)
    (hcell : 0 < s.grid_cell_size)
    (hz : 0 < s.zoom)
    (hx0 : 0 ≤ s.offset_x) (hx1 : s.offset_x ≤ (s.slide_dimensions.1 : ℚ))
    (hy0 : 0 ≤ s.offset_y) (hy1 : s.offset_y ≤ (s.slide_dimensions.2 : ℚ))
    (hgrids : s.tracking_grids = initialize_tracking s.slide_dimensions s.grid_cell_size)
    (hg : s.tracking_grids (visited_bucket s) = some g) :
    0 ≤ (visit_rect s canvas_w canvas_h g).1 ∧
    (visit_rect s canvas_w canvas_h g).1 ≤ (visit_rect s canvas_w canvas_h g).2.2.1 ∧
    (visit_rect s canvas_w canvas_h g).2.2.1 ≤ (g.cols : ℤ) - 1 ∧
    0 ≤ (visit_rect s canvas_w canvas_h g).2.1 ∧
    (visit_rect s canvas_w canvas_h g).2.1 ≤ (visit_rect s canvas_w canvas_h g).2.2.2 ∧
    (visit_rect s canvas_w canvas_h g).2.2.2 ≤ (g.rows : ℤ) - 1 := by
  rw [hgrids, initialize_tracking] at hg
  by_cases hmem : visited_bucket s ∈ tracking_levels
  · simp only [hmem, if_pos] at hg
    obtain rfl := Option.some_injective _ hg
    have hc : (0 : ℤ) < (s.grid_cell_size : ℤ) := by exact_mod_cast hcell
    have hfd : ∀ a : ℤ, Int.fdiv a (s.grid_cell_size : ℤ) = a / (s.grid_cell_size : ℤ) :=
      fun a => Int.fdiv_eq_ediv a (le_of_lt hc)
    have hvieww : (0 : ℚ) ≤ ((max canvas_w 1 : ℕ) : ℚ) / s.zoom := by positivity
    have hviewh : (0 : ℚ) ≤ ((max canvas_h 1 : ℕ) : ℚ) / s.zoom := by positivity
    have hx0i : 0 ≤ pyInt s.offset_x := pyInt_nonneg hx0
    have hy0i : 0 ≤ pyInt s.offset_y := pyInt_nonneg hy0
    have hx1i : pyInt s.offset_x ≤ (s.slide_dimensions.1 : ℤ) := pyInt_le_natCast hx0 hx1
    have hy1i : pyInt s.offset_y ≤ (s.slide_dimensions.2 : ℤ) := pyInt_le_natCast hy0 hy1
    have hx2i : pyInt s.offset_x
        ≤ pyInt (s.offset_x + ((max canvas_w 1 : ℕ) : ℚ) / s.zoom) :=
      pyInt_mono_of_nonneg hx0 (by linarith)
    have hy2i : pyInt s.offset_y
        ≤ pyInt (s.offset_y + ((max canvas_h 1 : ℕ) : ℚ) / s.zoom) :=
      pyInt_mono_of_nonneg hy0 (by linarith)
    have hnatdivx : ((s.slide_dimensions.1 : ℤ)) / (s.grid_cell_size : ℤ)
        = ((s.slide_dimensions.1 / s.grid_cell_size : ℕ) : ℤ) := by
      exact_mod_cast (Int.ofNat_ediv s.slide_dimensions.1 s.grid_cell_size).symm
    have hnatdivy : ((s.slide_dimensions.2 : ℤ)) / (s.grid_cell_size : ℤ)
        = ((s.slide_dimensions.2 / s.grid_cell_size : ℕ) : ℤ) := by
      exact_mod_cast (Int.ofNat_ediv s.slide_dimensions.2 s.grid_cell_size).symm
    refine ⟨le_max_left _ _, ?_, min_le_left _ _, le_max_left _ _, ?_, min_le_left _ _⟩
    · refine le_min (max_le ?_ ?_) (max_le ?_ ?_)
      · rw [Nat.cast_add, Nat.cast_one]
        linarith [Int.natCast_nonneg (s.slide_dimensions.1 / s.grid_cell_size)]
      · rw [hfd]
        calc pyInt s.offset_x / (s.grid_cell_size : ℤ)
            ≤ (s.slide_dimensions.1 : ℤ) / (s.grid_cell_size : ℤ) :=
              Int.ediv_le_ediv hc hx1i
        _ = ((s.slide_dimensions.1 / s.grid_cell_size : ℕ) : ℤ) := hnatdivx
        _ ≤ _ := by
              push_cast
              omega
      · rw [hfd]
        exact Int.ediv_nonneg (le_trans hx0i hx2i) (le_of_lt hc)
      · rw [hfd, hfd]
        exact Int.ediv_le_ediv hc hx2i
    · refine le_min (max_le ?_ ?_) (max_le ?_ ?_)
      · rw [Nat.cast_add, Nat.cast_one]
        linarith [Int.natCast_nonneg (s.slide_dimensions.2 / s.grid_cell_size)]
      · rw [hfd]
        calc pyInt s.offset_y / (s.grid_cell_size : ℤ)
            ≤ (s.slide_dimensions.2 : ℤ) / (s.grid_cell_size : ℤ) :=
              Int.ediv_le_ediv hc hy1i
        _ = ((s.slide_dimensions.2 / s.grid_cell_size : ℕ) : ℤ) := hnatdivy
        _ ≤ _ := by
              push_cast
              omega
      · rw [hfd]
        exact Int.ediv_nonneg (le_trans hy0i hy2i) (le_of_lt hc)
      · rw [hfd, hfd]
        exact Int.ediv_le_ediv hc hy2i
  · simp only [hmem, if_neg] at hg
    exact absurd hg (by simp)

/-- Witness for C10 at a concrete clamped state (zoom `1/2`, offset
`(150, 120)` inside a 500 × 400 image, 6 × 5 grid). -/
theorem visit_rect_in_bounds_witness :
    0 ≤ (visit_rect zoom50State 600 400 ⟨5, 6, fun _ _ => false⟩).1 ∧
    (visit_rect zoom50State 600 400 ⟨5, 6, fun _ _ => false⟩).1
      ≤ (visit_rect zoom50State 600 400 ⟨5, 6, fun _ _ => false⟩).2.2.1 ∧
    (visit_rect zoom50State 600 400 ⟨5, 6, fun _ _ => false⟩).2.2.1 ≤ (6 : ℤ) - 1 ∧
    0 ≤ (visit_rect zoom50State 600 400 ⟨5, 6, fun _ _ => false⟩).2.1 ∧
    (visit_rect zoom50State 600 400 ⟨5, 6, fun _ _ => false⟩).2.1
      ≤ (visit_rect zoom50State 600 400 ⟨5, 6, fun _ _ => false⟩).2.2.2 ∧
    (visit_rect zoom50State 600 400 ⟨5, 6, fun _ _ => false⟩).2.2.2 ≤ (5 : ℤ) - 1 := by
  have hvb : visited_bucket zoom50State = 40 := by
    rw [visited_bucket,
      show zoom50State.zoom * 100 = ((50 : ℤ) : ℚ) by norm_num [zoom50State],
      pyInt_intCast]
    decide
  have hg : zoom50State.tracking_grids (visited_bucket zoom50State)
      = some ⟨5, 6, fun _ _ => false⟩ := by
    rw [hvb]
    rfl
  exact visit_rect_in_bounds zoom50State 600 400 ⟨5, 6, fun _ _ => false⟩
    (by decide) (by norm_num [zoom50State]) (by norm_num [zoom50State])
    (by norm_num [zoom50State]) (by norm_num [zoom50State]) (by norm_num [zoom50State])
    rfl hg
